import Mathlib

/-!
Verification development for the rass-engine retrieval orchestration core.

The JavaScript sources are shallowly embedded: JavaScript values flowing
through query bodies are modelled by the inductive type `JVal` (JSON-like
values plus `jundefined` for JavaScript's `undefined`), stateful loops become
structural recursions with explicit state, backend and oracle clients become
function parameters, and code that can throw returns `Except String`.

Embedded files:
  * `executePlan.js` — `storeIdList`, `validate`, `injectVector`,
    `replaceVectors`, `injectChainedIds`, `scrollAll`, `runPlan`;
  * `agenticPlanner.js` (the second, guard-railed version, the one with
    `MAX_PLAN_STEPS`) — `semanticStep`, `prefixStep`, `planAndExecute`;
  * the `ask` endpoint of the server file (README, `runPlan` variant) —
    its result-merging loop, as `askDocuments`.
-/

namespace Rass

/-- JavaScript/JSON values as they flow through query bodies.
`jundefined` stands for JavaScript `undefined` (absent properties);
numbers are modelled as integers (only lengths and counts matter here). -/
inductive JVal where
  | jundefined
  | jnull
  | jbool (b : Bool)
  | jnum (n : Int)
  | jstr (s : String)
  | jarr (elems : List JVal)
  | jobj (fields : List (String × JVal))
deriving Repr

mutual

/-- Decidable equality on `JVal` (hand-rolled: `deriving` does not support
this nested inductive). -/
def decEqJ : (a b : JVal) → Decidable (a = b)
  | .jundefined, .jundefined => isTrue rfl
  | .jnull, .jnull => isTrue rfl
  | .jbool x, .jbool y =>
    match decEq x y with
    | isTrue h => isTrue (by rw [h])
    | isFalse h => isFalse fun e => h (JVal.jbool.inj e)
  | .jnum x, .jnum y =>
    match decEq x y with
    | isTrue h => isTrue (by rw [h])
    | isFalse h => isFalse fun e => h (JVal.jnum.inj e)
  | .jstr x, .jstr y =>
    match decEq x y with
    | isTrue h => isTrue (by rw [h])
    | isFalse h => isFalse fun e => h (JVal.jstr.inj e)
  | .jarr xs, .jarr ys =>
    match decEqJList xs ys with
    | isTrue h => isTrue (by rw [h])
    | isFalse h => isFalse fun e => h (JVal.jarr.inj e)
  | .jobj xs, .jobj ys =>
    match decEqJFields xs ys with
    | isTrue h => isTrue (by rw [h])
    | isFalse h => isFalse fun e => h (JVal.jobj.inj e)
  | .jundefined, .jnull => isFalse fun h => JVal.noConfusion h
  | .jundefined, .jbool _ => isFalse fun h => JVal.noConfusion h
  | .jundefined, .jnum _ => isFalse fun h => JVal.noConfusion h
  | .jundefined, .jstr _ => isFalse fun h => JVal.noConfusion h
  | .jundefined, .jarr _ => isFalse fun h => JVal.noConfusion h
  | .jundefined, .jobj _ => isFalse fun h => JVal.noConfusion h
  | .jnull, .jundefined => isFalse fun h => JVal.noConfusion h
  | .jnull, .jbool _ => isFalse fun h => JVal.noConfusion h
  | .jnull, .jnum _ => isFalse fun h => JVal.noConfusion h
  | .jnull, .jstr _ => isFalse fun h => JVal.noConfusion h
  | .jnull, .jarr _ => isFalse fun h => JVal.noConfusion h
  | .jnull, .jobj _ => isFalse fun h => JVal.noConfusion h
  | .jbool _, .jundefined => isFalse fun h => JVal.noConfusion h
  | .jbool _, .jnull => isFalse fun h => JVal.noConfusion h
  | .jbool _, .jnum _ => isFalse fun h => JVal.noConfusion h
  | .jbool _, .jstr _ => isFalse fun h => JVal.noConfusion h
  | .jbool _, .jarr _ => isFalse fun h => JVal.noConfusion h
  | .jbool _, .jobj _ => isFalse fun h => JVal.noConfusion h
  | .jnum _, .jundefined => isFalse fun h => JVal.noConfusion h
  | .jnum _, .jnull => isFalse fun h => JVal.noConfusion h
  | .jnum _, .jbool _ => isFalse fun h => JVal.noConfusion h
  | .jnum _, .jstr _ => isFalse fun h => JVal.noConfusion h
  | .jnum _, .jarr _ => isFalse fun h => JVal.noConfusion h
  | .jnum _, .jobj _ => isFalse fun h => JVal.noConfusion h
  | .jstr _, .jundefined => isFalse fun h => JVal.noConfusion h
  | .jstr _, .jnull => isFalse fun h => JVal.noConfusion h
  | .jstr _, .jbool _ => isFalse fun h => JVal.noConfusion h
  | .jstr _, .jnum _ => isFalse fun h => JVal.noConfusion h
  | .jstr _, .jarr _ => isFalse fun h => JVal.noConfusion h
  | .jstr _, .jobj _ => isFalse fun h => JVal.noConfusion h
  | .jarr _, .jundefined => isFalse fun h => JVal.noConfusion h
  | .jarr _, .jnull => isFalse fun h => JVal.noConfusion h
  | .jarr _, .jbool _ => isFalse fun h => JVal.noConfusion h
  | .jarr _, .jnum _ => isFalse fun h => JVal.noConfusion h
  | .jarr _, .jstr _ => isFalse fun h => JVal.noConfusion h
  | .jarr _, .jobj _ => isFalse fun h => JVal.noConfusion h
  | .jobj _, .jundefined => isFalse fun h => JVal.noConfusion h
  | .jobj _, .jnull => isFalse fun h => JVal.noConfusion h
  | .jobj _, .jbool _ => isFalse fun h => JVal.noConfusion h
  | .jobj _, .jnum _ => isFalse fun h => JVal.noConfusion h
  | .jobj _, .jstr _ => isFalse fun h => JVal.noConfusion h
  | .jobj _, .jarr _ => isFalse fun h => JVal.noConfusion h

def decEqJList : (a b : List JVal) → Decidable (a = b)
  | [], [] => isTrue rfl
  | [], _ :: _ => isFalse fun h => List.noConfusion h
  | _ :: _, [] => isFalse fun h => List.noConfusion h
  | x :: xs, y :: ys =>
    match decEqJ x y, decEqJList xs ys with
    | isTrue h1, isTrue h2 => isTrue (by rw [h1, h2])
    | isFalse h1, _ => isFalse fun e => h1 (List.head_eq_of_cons_eq e)
    | _, isFalse h2 => isFalse fun e => h2 (List.tail_eq_of_cons_eq e)

def decEqJFields : (a b : List (String × JVal)) → Decidable (a = b)
  | [], [] => isTrue rfl
  | [], _ :: _ => isFalse fun h => List.noConfusion h
  | _ :: _, [] => isFalse fun h => List.noConfusion h
  | (k, v) :: xs, (k', v') :: ys =>
    match decEq k k', decEqJ v v', decEqJFields xs ys with
    | isTrue h0, isTrue h1, isTrue h2 => isTrue (by rw [h0, h1, h2])
    | isFalse h0, _, _ =>
      isFalse fun e => h0 (congrArg Prod.fst (List.head_eq_of_cons_eq e))
    | _, isFalse h1, _ =>
      isFalse fun e => h1 (congrArg Prod.snd (List.head_eq_of_cons_eq e))
    | _, _, isFalse h2 => isFalse fun e => h2 (List.tail_eq_of_cons_eq e)

end

instance : DecidableEq JVal := decEqJ

namespace JVal

/-- JavaScript truthiness of a value (`if (v)`). -/
def truthy : JVal → Bool
  | .jundefined => false
  | .jnull => false
  | .jbool b => b
  | .jnum n => n != 0
  | .jstr s => s != ""
  | .jarr _ => true
  | .jobj _ => true

/-- The `v && typeof v === 'object'` test used by the recursive walkers:
arrays and plain objects qualify, `null` does not (it is falsy). -/
def objLike : JVal → Bool
  | .jarr _ => true
  | .jobj _ => true
  | _ => false

/-- Property read `o[k]`: `jundefined` when the key is absent or the value is
not an object, mirroring JavaScript property access on our data. -/
def jget : JVal → String → JVal
  | .jobj fields, k =>
    match fields.lookup k with
    | some v => v
    | none => .jundefined
  | _, _ => .jundefined

/-- Update an association list in place (JavaScript object assignment:
an existing key keeps its position, a new key is appended). -/
def setField : List (String × JVal) → String → JVal → List (String × JVal)
  | [], k, x => [(k, x)]
  | (k', v') :: rest, k, x =>
    if k' = k then (k', x) :: rest else (k', v') :: setField rest k x

/-- Property write `o[k] = x`. Writing to a non-object is silently dropped,
as JavaScript does for primitives in sloppy mode. -/
def jset (v : JVal) (k : String) (x : JVal) : JVal :=
  match v with
  | .jobj fields => .jobj (setField fields k x)
  | _ => v

/-- `Object.keys` (own enumerable keys; array and string indices). -/
def jkeys : JVal → List String
  | .jobj fields => fields.map (·.1)
  | .jarr xs => (List.range xs.length).map toString
  | .jstr s => (List.range s.length).map toString
  | _ => []

/-- JavaScript `a || b` on two values. -/
def orTruthy (a b : JVal) : JVal := if a.truthy then a else b

end JVal

/-! ## Configuration constants (executePlan.js / agenticPlanner.js)
Environment defaults: `EMBED_DIM = 1536`, `DEFAULT_K = 25`. -/

def EMBED_DIM : Nat := 1536

def DEFAULT_K : Nat := 25

def MAX_AGENT_ITER : Nat := 6

def MAX_PLAN_STEPS : Nat := 15

/-- `VALID_FIELDS` set of executePlan.js. -/
def VALID_FIELDS : List String :=
  ["doc_id", "doc_type", "issue_id",
   "file_path", "file_type",
   "attachment_content", "text_chunk",
   "embedding"]

/-! ## Hits, step results, backend -/

/-- One search hit; `source` is the `_source` object of the record. -/
structure Hit where
  source : JVal
deriving DecidableEq, Repr

/-- Per-step outcome stored in the `results` map of `runPlan`. -/
structure ExecResult where
  purpose : String
  hits : List Hit
deriving DecidableEq, Repr

/-- The `results` map of `runPlan`: a JavaScript `Map` in insertion order. -/
abbrev ResultsMap := List (String × ExecResult)

/-- A document written by `storeIdList` via `os.index` (large-id-set
side document). -/
structure SideDoc where
  index : String
  docId : String
  body : JVal
deriving DecidableEq, Repr

/-- The OpenSearch client, reduced to what `scrollAll` observes: for a
request body, the sequence of non-final pages the scroll cursor will serve
(an empty page follows them implicitly), and whether the initial `search`
call throws.  Scroll fetches themselves are modelled as non-failing. -/
structure Backend where
  pages : JVal → List (List Hit)
  searchFails : JVal → Bool

/-- Observable outcome of `scrollAll`: accumulated hits, number of
`os.scroll` fetch calls made (the final empty fetch included), and whether
`clearScroll` released the cursor. -/
structure ScrollResult where
  hits : List Hit
  scrollCalls : Nat
  released : Bool
deriving DecidableEq, Repr

/-- The `while (true)` fetch loop of `scrollAll` over the remaining pages:
stop at the first empty batch, otherwise accumulate and continue.  Returns
the hits gathered by the loop and the number of fetch calls made. -/
def scrollLoop : List (List Hit) → List Hit × Nat
  | [] => ([], 1)
  | p :: rest =>
    if p.isEmpty then ([], 1)
    else
      let (h, n) := scrollLoop rest
      (p ++ h, n + 1)

/-- `scrollAll(os, index, body)` of executePlan.js: initial search opens the
cursor and yields the first page, the loop fetches until an empty batch,
then `clearScroll` runs.  A failing initial search throws (the function has
no catch). -/
def scrollAll (os : Backend) (body : JVal) : Except String ScrollResult :=
  if os.searchFails body then .error "search failed"
  else
    match os.pages body with
    | [] => .ok ⟨[], 1, true⟩
    | p0 :: rest =>
      let (h, n) := scrollLoop rest
      .ok ⟨p0 ++ h, n, true⟩

/-! ## validate (executePlan.js lines 26-41)
The walker throws on a knn clause whose vector length differs from
`EMBED_DIM`; unknown fields in match/term/terms/range clauses only warn. -/

/-- Length of `o.knn.embedding.vector || []` as JavaScript computes it for
the `≠ EMBED_DIM` test: arrays and strings have a numeric `.length`; other
truthy values have `undefined` length (modelled as `none`), falsy ones are
replaced by `[]`. -/
def vectorLen : JVal → Option Nat
  | .jarr xs => some xs.length
  | .jstr s => some s.length
  | v => if v.truthy then none else some 0

mutual

/-- The recursive `walk` of `validate`. -/
def validateWalk : JVal → Except String Unit
  | .jobj fields => validateFields fields
  | .jarr elems => validateElems elems
  | _ => .ok ()

def validateFields : List (String × JVal) → Except String Unit
  | [] => .ok ()
  | (k, v) :: rest =>
    if k = "knn" ∧ (v.jget "embedding").truthy then
      match vectorLen ((v.jget "embedding").jget "vector") with
      | some len =>
        if len = EMBED_DIM then validateFields rest
        else .error ("knn vector length " ++ toString len ++ " ≠ " ++ toString EMBED_DIM)
      | none => .error ("knn vector length undefined ≠ " ++ toString EMBED_DIM)
    else if k ∈ ["match", "term", "terms", "range"] then
      -- unknown-field check only warns (`will still send`); never throws
      validateFields rest
    else if v.objLike then do
      validateWalk v
      validateFields rest
    else validateFields rest

def validateElems : List JVal → Except String Unit
  | [] => .ok ()
  | v :: rest =>
    -- `for (const k in o)` over an array: index keys, never clause keywords
    if v.objLike then do
      validateWalk v
      validateElems rest
    else validateElems rest

end

/-- `validate(body)` of executePlan.js. -/
def validate (body : JVal) : Except String Unit := validateWalk body

/-! ## injectVector / replaceVectors (executePlan.js lines 43-56) -/

/-- `injectVector(body, vector, k)`: overwrite `body.query` with a knn
clause and default `body.size` to `k`. -/
def injectVector (body vec k : JVal) : JVal :=
  let body1 := body.jset "query"
    (.jobj [("knn", .jobj [("embedding", .jobj [("vector", vec), ("k", k)])])])
  body1.jset "size" ((body1.jget "size").orTruthy k)

/-- The in-place update `obj.knn.embedding.vector = vec;
obj.knn.embedding.k = obj.knn.embedding.k || k` performed by
`replaceVectors` when `obj?.knn?.embedding` is truthy. -/
def applyKnnUpdate (vec k : JVal) (fields : List (String × JVal)) :
    List (String × JVal) :=
  let o : JVal := .jobj fields
  if ((o.jget "knn").jget "embedding").truthy then
    let knn := o.jget "knn"
    let emb := knn.jget "embedding"
    let emb1 := (emb.jset "vector" vec).jset "k" ((emb.jget "k").orTruthy k)
    JVal.setField fields "knn" (knn.jset "embedding" emb1)
  else fields

mutual

/-- `replaceVectors(obj, vec, k)`: recursively rewrite every
`knn.embedding` clause.  The source mutates the node and then recurses
into its (updated) children; since the inserted vector and `k` contain no
further `knn.embedding` nodes, recursing into the original children and
applying the node update afterwards yields the same value. -/
def replaceVectors (vec k : JVal) : JVal → JVal
  | .jobj fields => .jobj (applyKnnUpdate vec k (replaceVectorsFields vec k fields))
  | .jarr xs => .jarr (replaceVectorsElems vec k xs)
  | v => v

def replaceVectorsFields (vec k : JVal) :
    List (String × JVal) → List (String × JVal)
  | [] => []
  | (key, v) :: rest =>
    (key, if v.objLike then replaceVectors vec k v else v) ::
      replaceVectorsFields vec k rest

def replaceVectorsElems (vec k : JVal) : List JVal → List JVal
  | [] => []
  | v :: rest =>
    (if v.objLike then replaceVectors vec k v else v) ::
      replaceVectorsElems vec k rest

end

/-! ## storeIdList / injectChainedIds (executePlan.js lines 20-24, 58-71) -/

/-- `storeIdList(os, index, ids, field)`: persist the id list as a side
document and return its id.  The `uuidv4()` suffix is a parameter. -/
def storeIdList (index : String) (ids : List JVal) (field : String)
    (uuid : String) : String × SideDoc :=
  let docId := field ++ "_list_" ++ uuid
  (docId, ⟨index, docId, .jobj [(field, .jarr ids)]⟩)

/-- `Set.add`: append if not already present (JavaScript sets preserve
insertion order, and `[...set]` reads them back in that order). -/
def insertUniq (acc : List JVal) (v : JVal) : List JVal :=
  if v ∈ acc then acc else acc ++ [v]

/-- The id set gathered by `injectChainedIds`:
`for (const d of deps) for (const h of res.get(d)?.hits || [])
set.add(h._source.issue_id)`. -/
def collectIdSet (deps : List String) (res : ResultsMap) : List JVal :=
  deps.foldl
    (fun acc d =>
      let hs : List Hit := match res.lookup d with
        | some r => r.hits
        | none => []
      hs.foldl (fun acc2 h => insertUniq acc2 (h.source.jget "issue_id")) acc)
    []

/-- The inline `terms` filter clause for a small id set. -/
def inlineClause (ids : List JVal) : JVal :=
  .jobj [("terms", .jobj [("issue_id", .jarr ids)])]

/-- The indirect terms-lookup clause referencing a stored side document. -/
def lookupClause (index docId : String) : JVal :=
  .jobj [("terms", .jobj [("issue_id",
    .jobj [("index", .jstr index), ("id", .jstr docId),
           ("path", .jstr "issue_ids")])])]

/-- `injectChainedIds(body, deps, res, index, os)`.  Returns the rewritten
body together with the side documents written by `storeIdList`.  The
threshold of the source is the literal `1e3`.  When the collected set is
empty the function returns before touching the body.  Writing the filter
requires `body.query` to be an object: the source would raise a `TypeError`
otherwise (it has no catch), and a truthy non-object `body.query.bool` makes
JavaScript drop the filter write silently. -/
def injectChainedIds (body : JVal) (deps : List String) (res : ResultsMap)
    (index : String) (uuid : String) : Except String (JVal × List SideDoc) :=
  let ids := collectIdSet deps res
  if ids.isEmpty then .ok (body, [])
  else
    let (clause, docs) :=
      if 1000 < ids.length then
        let (docId, doc) := storeIdList index ids "issue_ids" uuid
        (lookupClause index docId, [doc])
      else (inlineClause ids, ([] : List SideDoc))
    match body.jget "query" with
    | .jobj qf =>
      let q : JVal := .jobj qf
      let boolV := q.jget "bool"
      let boolObj := if boolV.truthy then boolV else .jobj []
      match boolObj with
      | .jobj _ =>
        let oldF := boolObj.jget "filter"
        let fl := match oldF with
          | .jarr xs => xs
          | v => if v.truthy then [v] else []
        let body1 := body.jset "query"
          (q.jset "bool" (boolObj.jset "filter" (.jarr (fl ++ [clause]))))
        .ok (body1, docs)
      | _ =>
        -- truthy non-object bool: `.filter =` write on a primitive is
        -- silently ignored in sloppy mode; the side document was stored
        .ok (body, docs)
    | .jundefined => .error "TypeError: cannot set property bool of undefined"
    | .jnull => .error "TypeError: cannot set property bool of null"
    | _ => .error "TypeError: cannot set property filter of undefined"

/-! ## Steps and the runPlan scheduler (executePlan.js lines 90-166) -/

/-- A plan step as `runPlan` reads it: every property may be absent, and
both snake_case and camelCase spellings are consulted by the source. -/
structure StepS where
  step_id : Option String := none
  stepId : Option String := none
  purpose : Option String := none
  requires_embedding : Option Bool := none
  requiresEmbedding : Option Bool := none
  depends_on : Option (List String) := none
  dependsOn : Option (List String) := none
  query_body : Option JVal := none
  queryBody : Option JVal := none
  is_final : Option Bool := none
deriving DecidableEq, Repr

/-- Truthiness of an optional boolean property. -/
def boolTruthy : Option Bool → Bool
  | some b => b
  | none => false

/-- JavaScript `a || b` where `a` is an optional string property. -/
def orStrTruthy (a : Option String) (b : String) : String :=
  match a with
  | some s => if s = "" then b else s
  | none => b

/-- `s.requires_embedding || s.requiresEmbedding` (the `hasKnn` test). -/
def stepHasEmb (s : StepS) : Bool :=
  boolTruthy s.requires_embedding || boolTruthy s.requiresEmbedding

/-- The `semantic_recall` step `runPlan` prepends when no step requires an
embedding (executePlan.js lines 100-114). -/
def semanticRecallStep : StepS :=
  { step_id := some "semantic_recall",
    purpose := some "initial semantic similarity recall",
    requires_embedding := some true,
    depends_on := some [],
    query_body := some (.jobj
      [("query", .jobj [("knn", .jobj [("embedding",
          .jobj [("vector", .jarr []), ("k", .jnum (DEFAULT_K : Int))])])]),
       ("_source", .jarr [.jstr "doc_id", .jstr "file_path"]),
       ("size", .jnum (DEFAULT_K : Int))]),
    is_final := some false }

/-- `fullPlan` of `runPlan`: keep the plan if some step requires an
embedding, otherwise prepend `semantic_recall`. -/
def fullPlan (plan : List StepS) : List StepS :=
  if plan.any stepHasEmb then plan else semanticRecallStep :: plan

/-- `key.split('.')[0]`: the field path up to the first dot. -/
def rootField (s : String) : String :=
  ⟨s.toList.takeWhile fun c => c ≠ '.'⟩

/-- The unknown-field fallback of `runPlan` (lines 139-151): for a
non-embedding step, if the first key of a top-level term/match/terms clause
is not a known field, replace the whole query by a knn clause.  The source
captures `q = body.query || {}` once, before the loop. -/
def unknownFieldFallback (body vec topK : JVal) : JVal :=
  let q := (body.jget "query").orTruthy (.jobj [])
  ["term", "match", "terms"].foldl
    (fun b kw =>
      let clause := q.jget kw
      if clause.truthy then
        match (JVal.jkeys clause).head?.map rootField with
        | some f => if f ≠ "" ∧ f ∉ VALID_FIELDS then injectVector b vec topK else b
        | none => b
      else b)
    body

/-- Context shared by all steps of one `runPlan` call: the embedding of the
query text (the source computes it lazily once), the client, the index
name, and the uuid source consumed by `storeIdList`. -/
structure RunCtx where
  vec : JVal
  os : Backend
  index : String
  uuidF : Nat → String

/-- Mutable state of the `runPlan` loop. -/
structure RunState where
  results : ResultsMap := []
  sideDocs : List SideDoc := []
  stores : Nat := 0

/-- `results.set(id, …)` (JavaScript `Map.set`: update in place or append). -/
def setResult : ResultsMap → String → ExecResult → ResultsMap
  | [], k, v => [(k, v)]
  | (k', v') :: rest, k, v =>
    if k' = k then (k, v) :: rest else (k', v') :: setResult rest k v

/-- One iteration of the `for (const step of fullPlan)` loop of `runPlan`:
skip silently on a missing body or missing dependencies, default the size,
inject the vector or apply the unknown-field fallback, inject chained ids,
validate, then execute via `scrollAll`.  Any throw escapes: the loop body
has no catch. -/
def runStep (ctx : RunCtx) (st : RunState) (s : StepS) : Except String RunState :=
  let id := orStrTruthy s.step_id (orStrTruthy s.stepId "step?")
  let deps := (s.depends_on.orElse fun _ => s.dependsOn).getD []
  let wantsVec := boolTruthy (s.requires_embedding.orElse fun _ => s.requiresEmbedding)
  let body0 := JVal.orTruthy (s.query_body.getD .jundefined) (s.queryBody.getD .jundefined)
  let purpose := orStrTruthy s.purpose "unspecified"
  if ¬ body0.truthy then .ok st
  else if deps.any (fun d => (st.results.lookup d).isNone) then .ok st
  else
    let topK := (body0.jget "size").orTruthy (.jnum (DEFAULT_K : Int))
    let body1 := if (body0.jget "size").truthy then body0 else body0.jset "size" topK
    let body2 :=
      if wantsVec then replaceVectors ctx.vec topK body1
      else unknownFieldFallback body1 ctx.vec topK
    match injectChainedIds body2 deps st.results ctx.index (ctx.uuidF st.stores) with
    | .error e => .error e
    | .ok (body3, docs) =>
      match validate body3 with
      | .error e => .error e
      | .ok _ =>
        match scrollAll ctx.os body3 with
        | .error e => .error e
        | .ok r =>
          .ok ⟨setResult st.results id ⟨purpose, r.hits⟩,
               st.sideDocs ++ docs,
               st.stores + (if docs.isEmpty then 0 else 1)⟩

/-- The step loop: a throw in any step aborts the remaining steps. -/
def runStepsList (ctx : RunCtx) : RunState → List StepS → Except String RunState
  | st, [] => .ok st
  | st, s :: rest =>
    match runStep ctx st s with
    | .error e => .error e
    | .ok st' => runStepsList ctx st' rest

/-- `runPlan(plan, queryText, indexName, mappings, osClient, embedText)`.
`vec` is the value `embedText(queryText)` would produce; the side-document
writes are returned alongside the results map. -/
def runPlan (plan : List StepS) (vec : JVal) (os : Backend) (index : String)
    (uuidF : Nat → String) : Except String (ResultsMap × List SideDoc) :=
  match runStepsList ⟨vec, os, index, uuidF⟩ {} (fullPlan plan) with
  | .error e => .error e
  | .ok st => .ok (st.results, st.sideDocs)

/-! ## Plan repair (agenticPlanner.js, guard-railed version, lines 233-323) -/

/-- `semanticStep(stepId, k)` of agenticPlanner.js. -/
def semanticStep (stepId : String) (k : Int) : StepS :=
  { step_id := some stepId,
    purpose := some "semantic similarity fallback",
    requires_embedding := some true,
    depends_on := some [],
    is_final := some true,
    query_body := some (.jobj
      [("_source", .jarr [.jstr "doc_id", .jstr "file_path", .jstr "attachment_content"]),
       ("size", .jnum k),
       ("query", .jobj [("knn", .jobj [("embedding",
          .jobj [("vector", .jarr []), ("k", .jnum k)])])])]) }

/-- `prefixStep(stepId, queryText, k)` of agenticPlanner.js. -/
def prefixStep (stepId queryText : String) (k : Int) : StepS :=
  { step_id := some stepId,
    purpose := some "fuzzy / prefix text fallback",
    requires_embedding := some false,
    depends_on := some [],
    is_final := some false,
    query_body := some (.jobj
      [("_source", .jarr [.jstr "doc_id", .jstr "file_path", .jstr "attachment_content"]),
       ("size", .jnum k),
       ("query", .jobj [("bool", .jobj [("should", .jarr
         [.jobj [("match_phrase_prefix", .jobj [("attachment_content", .jstr queryText)])],
          .jobj [("wildcard", .jobj [("attachment_content", .jstr (queryText ++ "*"))])]])])])]) }

/-- An entry of the raw plan array from the plan oracle: either a step-like
object or a primitive non-object value (number, string, null, …). -/
inductive RawStep where
  | obj (s : StepS)
  | nonObj (v : JVal)
deriving DecidableEq, Repr

/-- The raw `plan` value reaching the guardrails: the oracle call threw
(the catch leaves `plan = []`), returned a non-array, or returned an array. -/
inductive RawPlan where
  | oracleError
  | notArray (v : JVal)
  | arr (steps : List RawStep)
deriving DecidableEq, Repr

/-- Guardrail 1 (lines 299-304): `!Array.isArray(plan) || plan.length === 0`
replaces the plan by `[prefixStep('text_prefix', query, DEFAULT_K),
semanticStep('semantic_fallback', DEFAULT_K)]`. -/
def fallbackApplied (q : String) : RawPlan → List RawStep
  | .arr (s :: rest) => s :: rest
  | _ => [.obj (prefixStep "text_prefix" q (DEFAULT_K : Int)),
          .obj (semanticStep "semantic_fallback" (DEFAULT_K : Int))]

/-- `Object.assign(step, semanticStep(step.step_id || 'auto_semantic'))`:
overwrite the six fields `semanticStep` carries, keep the rest. -/
def objAssignSemantic (s : StepS) : StepS :=
  let sem := semanticStep (orStrTruthy s.step_id "auto_semantic") (DEFAULT_K : Int)
  { s with step_id := sem.step_id, purpose := sem.purpose,
           requires_embedding := sem.requires_embedding,
           depends_on := sem.depends_on, is_final := sem.is_final,
           query_body := sem.query_body }

/-- Guardrail 3 (lines 311-323) applied to one step-like object: move
`queryBody` to `query_body`, substitute a semantic step when the body is
still missing, then default `size` when it is `null`/`undefined` (a write
on a truthy non-object body is silently dropped, as in JavaScript). -/
def normalizeStep (s : StepS) : StepS :=
  let s1 :=
    if (s.queryBody.getD .jundefined).truthy ∧ ¬ (s.query_body.getD .jundefined).truthy
    then { s with query_body := s.queryBody, queryBody := none }
    else s
  let s2 := if ¬ (s1.query_body.getD .jundefined).truthy then objAssignSemantic s1 else s1
  match s2.query_body with
  | some body =>
    let sz := body.jget "size"
    if sz = .jundefined ∨ sz = .jnull
    then { s2 with query_body := some (body.jset "size" (.jnum (DEFAULT_K : Int))) }
    else s2
  | none => s2

/-- Guardrail 3 on one raw entry.  A primitive entry is not repaired: the
source reads `step.query_body.size` on it, which raises a `TypeError`. -/
def normalizeRawStep : RawStep → Except String StepS
  | .obj s => .ok (normalizeStep s)
  | .nonObj _ => .error "TypeError: cannot read size of undefined"

/-- Guardrail 3 over the whole plan array, in order; the first `TypeError`
aborts `planAndExecute` (the loop body has no catch around it). -/
def normalizeSteps : List RawStep → Except String (List StepS)
  | [] => .ok []
  | x :: rest =>
    match normalizeRawStep x with
    | .error e => .error e
    | .ok y =>
      match normalizeSteps rest with
      | .error e => .error e
      | .ok ys => .ok (y :: ys)

/-- The full Validator/Repairer pipeline of one loop iteration:
fallback substitution, truncation to `MAX_PLAN_STEPS`, per-step
normalization. -/
def repairPlan (q : String) (rp : RawPlan) : Except String (List StepS) :=
  let p1 := fallbackApplied q rp
  let p2 := if MAX_PLAN_STEPS < p1.length then p1.take MAX_PLAN_STEPS else p1
  normalizeSteps p2

/-! ## The convergence loop (agenticPlanner.js lines 276-360)
The plan oracle, the injected `runPlan` and the coverage oracle are
external collaborators; they are modelled as functions of the iteration
index (the loop calls each of them once per iteration). -/

inductive Outcome where
  | noHits
  | converged
  | gaveUp
deriving DecidableEq, Repr

/-- What `planAndExecute` produced: the returned map, how many planning
attempts ran, and through which exit the loop left. -/
structure LoopResult where
  result : ResultsMap
  attempts : Nat
  outcome : Outcome
deriving DecidableEq, Repr

/-- `summary.every(s => s.hit_count === 0)`. -/
def allZero (m : ResultsMap) : Bool :=
  m.all fun p => p.2.hits.length == 0

/-- The `while (iteration++ < MAX_AGENT_ITER)` loop, by remaining fuel.
`done` counts completed iterations.  On fuel exhaustion the source logs
`gave up … returning what we have` and returns `new Map()` — an empty map. -/
def loopGo (planF : Nat → RawPlan) (execF : Nat → List StepS → ResultsMap)
    (covF : Nat → Bool) (q : String) : Nat → Nat → Except String LoopResult
  | 0, done => .ok ⟨[], done, .gaveUp⟩
  | fuel + 1, done =>
    match repairPlan q (planF done) with
    | .error e => .error e
    | .ok plan =>
      let res := execF done plan
      if allZero res then .ok ⟨res, done + 1, .noHits⟩
      else if covF done then .ok ⟨res, done + 1, .converged⟩
      else loopGo planF execF covF q fuel (done + 1)

/-- `planAndExecute` of agenticPlanner.js (guard-railed version). -/
def planAndExecute (planF : Nat → RawPlan)
    (execF : Nat → List StepS → ResultsMap) (covF : Nat → Bool)
    (q : String) : Except String LoopResult :=
  loopGo planF execF covF q MAX_AGENT_ITER 0

/-! ## The ask merge (README server, lines 1371-1373)
`const documents = []; for (const [, r] of resMap) for (const h of r.hits)
documents.push(h._source); return { documents };` -/

/-- The result-merging loop of `ask`. -/
def askDocuments (resMap : ResultsMap) : List JVal :=
  resMap.foldl (fun docs p => p.2.hits.foldl (fun ds h => ds ++ [h.source]) docs) []

/-- Decidable equality of `Except` values (needed to evaluate the model on
concrete inputs). -/
instance {ε α : Type} [DecidableEq ε] [DecidableEq α] :
    DecidableEq (Except ε α) := fun a b =>
  match a, b with
  | .ok x, .ok y =>
    match decEq x y with
    | isTrue h => isTrue (by rw [h])
    | isFalse h => isFalse fun e => h (by cases e; rfl)
  | .error x, .error y =>
    match decEq x y with
    | isTrue h => isTrue (by rw [h])
    | isFalse h => isFalse fun e => h (by cases e; rfl)
  | .ok _, .error _ => isFalse fun e => Except.noConfusion e
  | .error _, .ok _ => isFalse fun e => Except.noConfusion e

/-! # Claims -/

/-- Helper for C3: the fetch loop over all-non-empty pages accumulates every
page in order and makes one fetch per page plus the final empty fetch. -/
theorem scrollLoop_join (ps : List (List Hit)) (h : ∀ p ∈ ps, p ≠ []) :
    scrollLoop ps = (ps.flatten, ps.length + 1) := by
  induction ps with
  | nil => rfl
  | cons p rest ih =>
    have hp : p.isEmpty = false := by
      have := h p (by simp)
      simpa [List.isEmpty_iff] using this
    have ih' := ih fun q hq => h q (by simp [hq])
    simp [scrollLoop, hp, ih']

/-- C3: for a live cursor whose pages are all non-empty, `scrollAll`
accumulates every page in backend order (not just the first), makes one
fetch per page (the last fetch coming back empty ends the loop) and
releases the cursor. -/
theorem rass_C3 (os : Backend) (body : JVal)
    (h1 : os.searchFails body = false)
    (h2 : os.pages body ≠ [])
    (h3 : ∀ p ∈ os.pages body, p ≠ []) :
    scrollAll os body =
      .ok ⟨(os.pages body).flatten, (os.pages body).length, true⟩ := by
  rcases hp : os.pages body with _ | ⟨p0, rest⟩
  · exact absurd hp h2
  · have h3' : ∀ p ∈ rest, p ≠ [] := fun p hmem =>
      h3 p (by rw [hp]; exact List.mem_cons_of_mem _ hmem)
    simp [scrollAll, h1, hp, scrollLoop_join rest h3']

/-- Pages of sizes 100, 100 and 37 for the C3 witness. -/
def c3Pages : List (List Hit) :=
  [(List.range 100).map fun i => ⟨.jnum i⟩,
   (List.range 100).map fun i => ⟨.jnum (100 + (i : Int))⟩,
   (List.range 37).map fun i => ⟨.jnum (200 + (i : Int))⟩]

def c3Backend : Backend := ⟨fun _ => c3Pages, fun _ => false⟩

set_option maxRecDepth 4000 in
/-- Witness for C3: three pages of sizes 100/100/37 yield exactly 237
accumulated hits, three fetches, and a released cursor. -/
theorem rass_C3_witness :
    (scrollAll c3Backend (.jobj [])).map
        (fun r => (r.hits.length, r.scrollCalls, r.released)) =
      .ok (237, 3, true) := by
  rw [rass_C3 c3Backend (.jobj []) rfl (by decide) (by decide)]
  decide

/-- Helper for C6: pushing hit sources one by one appends their projection. -/
theorem foldl_push_sources (hits : List Hit) (acc : List JVal) :
    hits.foldl (fun ds h => ds ++ [h.source]) acc = acc ++ hits.map Hit.source := by
  induction hits generalizing acc with
  | nil => simp
  | cons h t ih => simp [ih]

/-- Helper for C6: the outer loop of the merge concatenates the per-step
projections in map order. -/
theorem askDocuments_go (m : ResultsMap) (acc : List JVal) :
    m.foldl (fun docs p => p.2.hits.foldl (fun ds h => ds ++ [h.source]) docs) acc
      = acc ++ (m.map fun p => p.2.hits.map Hit.source).flatten := by
  induction m generalizing acc with
  | nil => simp
  | cons p rest ih =>
    rw [List.foldl_cons, foldl_push_sources, ih]
    simp [List.append_assoc]

/-- C6 (amended): the merge `ask` delivers is the plain concatenation of the
per-step hit-source lists in step (result-map insertion) order — all of the
first step's hits, then all of the second step's, and so on; no round-robin
interleaving and no deduplication is applied. -/
theorem rass_C6 (resMap : ResultsMap) :
    askDocuments resMap = (resMap.map fun p => p.2.hits.map Hit.source).flatten := by
  simpa [askDocuments] using askDocuments_go resMap []

/-- Counterexample for C6 as stated: step A with hits `[a1, a2]` and step B
with hits `[b1]` merge to `[a1, a2, b1]`, not to the round-robin
`[a1, b1, a2]` the claim requires. -/
theorem rass_C6_cex :
    askDocuments
        [("A", ⟨"a", [⟨.jstr "a1"⟩, ⟨.jstr "a2"⟩]⟩),
         ("B", ⟨"b", [⟨.jstr "b1"⟩]⟩)]
      = [.jstr "a1", .jstr "a2", .jstr "b1"]
    ∧ askDocuments
        [("A", ⟨"a", [⟨.jstr "a1"⟩, ⟨.jstr "a2"⟩]⟩),
         ("B", ⟨"b", [⟨.jstr "b1"⟩]⟩)]
      ≠ [.jstr "a1", .jstr "b1", .jstr "a2"] := by
  decide

/-- Helper for C7: normalization preserves the number of steps when it
succeeds. -/
theorem normalizeSteps_length (l : List RawStep) :
    ∀ ps, normalizeSteps l = .ok ps → ps.length = l.length := by
  induction l with
  | nil =>
    intro ps h
    simp only [normalizeSteps] at h
    cases h
    rfl
  | cons x rest ih =>
    intro ps h
    simp only [normalizeSteps] at h
    cases hx : normalizeRawStep x with
    | error e => rw [hx] at h; cases h
    | ok y =>
      rw [hx] at h
      cases hr : normalizeSteps rest with
      | error e => rw [hr] at h; cases h
      | ok ys =>
        rw [hr] at h
        cases h
        simp [ih ys hr]

/-- C7: a raw plan array longer than `MAX_PLAN_STEPS` (15) is truncated to
exactly its first 15 entries — the remaining pipeline is the per-step
normalization of that prefix, in the original order, and any successfully
validated plan has exactly 15 steps. -/
theorem rass_C7 (q : String) (steps : List RawStep)
    (h : MAX_PLAN_STEPS < steps.length) :
    repairPlan q (.arr steps) = normalizeSteps (steps.take MAX_PLAN_STEPS)
    ∧ ∀ ps, repairPlan q (.arr steps) = .ok ps → ps.length = MAX_PLAN_STEPS := by
  have hne : steps ≠ [] := by
    intro e
    subst e
    simp [MAX_PLAN_STEPS] at h
  have hfa : fallbackApplied q (.arr steps) = steps := by
    cases steps with
    | nil => exact absurd rfl hne
    | cons a t => rfl
  have heq : repairPlan q (.arr steps) = normalizeSteps (steps.take MAX_PLAN_STEPS) := by
    simp only [repairPlan, hfa]
    rw [if_pos h]
  refine ⟨heq, fun ps hps => ?_⟩
  rw [heq] at hps
  have := normalizeSteps_length _ ps hps
  rw [this, List.length_take]
  omega

/-- A 16-entry raw plan for the C7 witness. -/
def c7Steps : List RawStep :=
  (List.range 16).map fun i =>
    .obj { step_id := some ("s" ++ toString i),
           query_body := some (.jobj [("size", .jnum 1)]) }

/-- Witness for C7 at a concrete 16-step plan. -/
theorem rass_C7_witness :
    repairPlan "q" (.arr c7Steps) = normalizeSteps (c7Steps.take MAX_PLAN_STEPS) :=
  (rass_C7 "q" c7Steps (by decide)).1

/-- C10: `runPlan` leaves a plan containing an embedding step unchanged and
in order, prepends the `semantic_recall` knn step otherwise, and the plan it
executes therefore always contains an embedding step; the prepended step
carries the default result count both as `size` and as knn `k`. -/
theorem rass_C10 (plan : List StepS) :
    (plan.any stepHasEmb = true → fullPlan plan = plan)
    ∧ (plan.any stepHasEmb = false → fullPlan plan = semanticRecallStep :: plan)
    ∧ (fullPlan plan).any stepHasEmb = true
    ∧ (semanticRecallStep.query_body.getD .jundefined).jget "size"
        = .jnum (DEFAULT_K : Int)
    ∧ ((((semanticRecallStep.query_body.getD .jundefined).jget "query").jget
          "knn").jget "embedding").jget "k" = .jnum (DEFAULT_K : Int) := by
  refine ⟨fun h => by simp [fullPlan, h], fun h => by simp [fullPlan, h], ?_,
    by decide, by decide⟩
  by_cases h : plan.any stepHasEmb
  · simp [fullPlan, h]
  · simp only [Bool.not_eq_true] at h
    simp [fullPlan, h, stepHasEmb, semanticRecallStep, boolTruthy]

/-- Witness for C10: the empty plan gets the `semantic_recall` step. -/
theorem rass_C10_witness : fullPlan [] = [semanticRecallStep] :=
  (rass_C10 []).2.1 rfl

/-- C1 (amended): when the raw plan is `null`/a non-array, an empty array,
or the plan oracle threw, `planAndExecute` substitutes the deterministic
two-step fallback plan — a fuzzy/prefix text step followed by one
semantic-similarity embedding step with the default result count — which is
non-empty and whose steps both carry a usable query body; no error is
raised for these inputs.  (A non-empty array of non-object entries is *not*
repaired: see the counterexample.) -/
theorem rass_C1 (q : String) (v : JVal) :
    repairPlan q .oracleError =
        .ok [prefixStep "text_prefix" q (DEFAULT_K : Int),
             semanticStep "semantic_fallback" (DEFAULT_K : Int)]
    ∧ repairPlan q (.notArray v) =
        .ok [prefixStep "text_prefix" q (DEFAULT_K : Int),
             semanticStep "semantic_fallback" (DEFAULT_K : Int)]
    ∧ repairPlan q (.arr []) =
        .ok [prefixStep "text_prefix" q (DEFAULT_K : Int),
             semanticStep "semantic_fallback" (DEFAULT_K : Int)]
    ∧ [prefixStep "text_prefix" q (DEFAULT_K : Int),
       semanticStep "semantic_fallback" (DEFAULT_K : Int)] ≠ ([] : List StepS)
    ∧ ((prefixStep "text_prefix" q (DEFAULT_K : Int)).query_body.getD
        .jundefined).truthy = true
    ∧ ((semanticStep "semantic_fallback" (DEFAULT_K : Int)).query_body.getD
        .jundefined).truthy = true := by
  refine ⟨rfl, rfl, rfl, ?_, rfl, rfl⟩
  exact List.cons_ne_nil _ _

/-- Counterexample for C1 as stated: the substituted fallback has two steps
(the first of which does not require an embedding), not one
semantic-similarity step; and a non-empty raw array of non-objects is not
repaired at all — normalization raises a `TypeError`, so `planAndExecute`
does not survive every malformed plan input. -/
theorem rass_C1_cex :
    (repairPlan "q0" (.arr [])).map List.length = .ok 2
    ∧ (repairPlan "q0" (.arr [])).map List.length ≠ .ok 1
    ∧ (prefixStep "text_prefix" "q0" (DEFAULT_K : Int)).requires_embedding
        = some false
    ∧ repairPlan "q0" (.arr [.nonObj (.jnum 1)]) =
        .error "TypeError: cannot read size of undefined" := by
  decide

/-- Helper for C2: while the coverage oracle keeps answering `false` and
every attempt repairs to a plan whose execution finds at least one hit, the
loop consumes all its fuel and exits through the give-up branch, returning
the empty map `new Map()`. -/
theorem loopGo_gaveUp (planF : Nat → RawPlan)
    (execF : Nat → List StepS → ResultsMap) (covF : Nat → Bool) (q : String) :
    ∀ (fuel done : Nat),
      (∀ i, done ≤ i → i < done + fuel →
        covF i = false ∧
        ∃ pl, repairPlan q (planF i) = .ok pl ∧ allZero (execF i pl) = false) →
      loopGo planF execF covF q fuel done = .ok ⟨[], done + fuel, .gaveUp⟩ := by
  intro fuel
  induction fuel with
  | zero => intro done _; rfl
  | succ n ih =>
    intro done h
    obtain ⟨hcov, pl, hok, hnz⟩ := h done (le_refl _) (by omega)
    have tail := ih (done + 1) fun i h1 h2 => h i (by omega) (by omega)
    simp only [loopGo]
    rw [hok]
    simp only [hnz, hcov, Bool.false_eq_true, if_false]
    rw [tail]
    have harith : done + 1 + n = done + (n + 1) := by omega
    rw [harith]

/-- C2 (amended): with the always-false coverage oracle and every attempt
finding at least one hit, the loop performs exactly `MAX_AGENT_ITER` (6)
planning attempts and exits through the distinguishable give-up branch —
which returns an *empty* result map (`new Map()`), discarding what the last
attempt produced; with a coverage oracle answering `true` on the second
call, the loop stops after exactly 2 attempts and returns that attempt's
results as converged. -/
theorem rass_C2 (planF : Nat → RawPlan) (execF : Nat → List StepS → ResultsMap)
    (covF : Nat → Bool) (q : String) :
    ((∀ i, i < MAX_AGENT_ITER → covF i = false) →
     (∀ i, i < MAX_AGENT_ITER →
        ∃ pl, repairPlan q (planF i) = .ok pl ∧ allZero (execF i pl) = false) →
     planAndExecute planF execF covF q = .ok ⟨[], MAX_AGENT_ITER, .gaveUp⟩)
    ∧ (∀ pl0 pl1,
        covF 0 = false → covF 1 = true →
        repairPlan q (planF 0) = .ok pl0 → allZero (execF 0 pl0) = false →
        repairPlan q (planF 1) = .ok pl1 → allZero (execF 1 pl1) = false →
        planAndExecute planF execF covF q = .ok ⟨execF 1 pl1, 2, .converged⟩) := by
  constructor
  · intro hcov hnz
    have := loopGo_gaveUp planF execF covF q MAX_AGENT_ITER 0
      fun i h1 h2 => ⟨hcov i (by omega), hnz i (by omega)⟩
    simpa [planAndExecute] using this
  · intro pl0 pl1 hc0 hc1 hok0 hz0 hok1 hz1
    show loopGo planF execF covF q MAX_AGENT_ITER 0 = _
    have h6 : MAX_AGENT_ITER = 5 + 1 := rfl
    rw [h6]
    simp only [loopGo]
    rw [hok0]
    simp only [hz0, hc0, Bool.false_eq_true, if_false]
    show loopGo planF execF covF q (4 + 1) (0 + 1) = _
    simp only [loopGo]
    rw [hok1]
    simp only [hz1, hc1, if_true]
    rfl

/-- Plan oracle for the C2 witness and counterexample: always an empty
array, repaired to the two-step fallback. -/
def c2PlanF : Nat → RawPlan := fun _ => .arr []

def c2Hit : Hit := ⟨.jobj [("doc_id", .jstr "d")]⟩

/-- Injected runner for C2: every attempt yields one step with one hit. -/
def c2ExecF : Nat → List StepS → ResultsMap := fun _ _ => [("s", ⟨"p", [c2Hit]⟩)]

/-- Coverage oracle answering `true` exactly on its second call. -/
def c2CovAt1 : Nat → Bool := fun i => i == 1

/-- Coverage oracle that never reports coverage. -/
def c2CovFalse : Nat → Bool := fun _ => false

/-- Injected runner whose attempts find nothing. -/
def c2ExecZero : Nat → List StepS → ResultsMap := fun _ _ => [("s", ⟨"p", []⟩)]

/-- Witness for C2: coverage true on iteration 2 stops after exactly two
attempts with the second attempt's results. -/
theorem rass_C2_witness :
    planAndExecute c2PlanF c2ExecF c2CovAt1 "q" =
      .ok ⟨[("s", ⟨"p", [c2Hit]⟩)], 2, .converged⟩ :=
  (rass_C2 c2PlanF c2ExecF c2CovAt1 "q").2
    [prefixStep "text_prefix" "q" (DEFAULT_K : Int),
     semanticStep "semantic_fallback" (DEFAULT_K : Int)]
    [prefixStep "text_prefix" "q" (DEFAULT_K : Int),
     semanticStep "semantic_fallback" (DEFAULT_K : Int)]
    (by decide) (by decide) (by decide) (by decide) (by decide) (by decide)

/-- Counterexample for C2 as stated: with the always-false oracle and every
attempt producing a hit, the give-up exit returns the *empty* map, not
"whatever the last attempt produced" (which was non-empty); and an attempt
with zero hits ends the loop after a single planning attempt, so "exactly
MAX_ITER attempts" also fails without the extra non-empty-hits premise. -/
theorem rass_C2_cex :
    planAndExecute c2PlanF c2ExecF c2CovFalse "q" = .ok ⟨[], 6, .gaveUp⟩
    ∧ c2ExecF 5 [] = [("s", ⟨"p", [c2Hit]⟩)]
    ∧ ([] : ResultsMap) ≠ [("s", ⟨"p", [c2Hit]⟩)]
    ∧ planAndExecute c2PlanF c2ExecZero c2CovFalse "q" =
        .ok ⟨[("s", ⟨"p", []⟩)], 1, .noHits⟩ := by
  decide

/-! Concrete two-step plan for C4: `s2` depends on `s1`; `s1` finds nothing. -/

def c4Hit : Hit := ⟨.jobj [("doc_id", .jstr "d1")]⟩

def c4Body1 : JVal :=
  .jobj [("query", .jobj [("term", .jobj [("doc_id", .jstr "none")])]),
         ("size", .jnum 5)]

def c4Body2 : JVal :=
  .jobj [("query", .jobj [("term", .jobj [("doc_id", .jstr "yes")])]),
         ("size", .jnum 5)]

def c4s1 : StepS :=
  { step_id := some "s1", purpose := some "p1",
    requires_embedding := some true, depends_on := some [],
    query_body := some c4Body1 }

def c4s2 : StepS :=
  { step_id := some "s2", purpose := some "p2",
    requires_embedding := some false, depends_on := some ["s1"],
    query_body := some c4Body2 }

/-- Backend for C4: nothing matches `s1`'s query, one record matches
`s2`'s *original, unconstrained* query body. -/
def c4B : Backend := ⟨fun b => if b = c4Body2 then [[c4Hit]] else [], fun _ => false⟩

/-- C4 (amended): a dependent step's collected identifier set is
deduplicated and, when non-empty and within the threshold, injected as an
inline `terms` filter containing exactly those identifiers; but when the
dependencies yield *zero* identifiers, `injectChainedIds` returns the body
unchanged and `runPlan` still executes the step with its original
(unconstrained) query, recording whatever the backend returns — the step is
not skipped. -/
theorem rass_C4 (body : JVal) (qf : List (String × JVal)) (deps : List String)
    (res : ResultsMap) (idx u : String) (ids : List JVal)
    (h1 : body.jget "query" = .jobj qf)
    (h2 : qf.lookup "bool" = none)
    (h3 : collectIdSet deps res = ids) :
    ((ids = [] → injectChainedIds body deps res idx u = .ok (body, []))
     ∧ (ids ≠ [] → ids.length ≤ 1000 →
        injectChainedIds body deps res idx u =
          .ok (body.jset "query" ((JVal.jobj qf).jset "bool"
                (.jobj [("filter", .jarr [inlineClause ids])])), [])))
    ∧ runPlan [c4s1, c4s2] (.jarr []) c4B "idx" (fun _ => "u") =
        .ok ([("s1", ⟨"p1", []⟩), ("s2", ⟨"p2", [c4Hit]⟩)], []) := by
  refine ⟨⟨?_, ?_⟩, by decide⟩
  · intro hnil
    subst hnil
    simp [injectChainedIds, h3]
  · intro hne hle
    have hie : ids.isEmpty = false := by
      cases ids with
      | nil => exact absurd rfl hne
      | cons a t => rfl
    have hgt : ¬ (1000 < ids.length) := by omega
    simp only [injectChainedIds]
    rw [h3, h1]
    simp [hie, hgt, h2, JVal.truthy, JVal.jget, JVal.jset, JVal.setField]

/-- Dependency results for the C4 witness: hits carrying identifiers
1, 2, 3, 2 — collected as the deduplicated set `[1, 2, 3]`. -/
def c4ResW : ResultsMap :=
  [("d", ⟨"p", [⟨.jobj [("issue_id", .jnum 1)]⟩, ⟨.jobj [("issue_id", .jnum 2)]⟩,
                ⟨.jobj [("issue_id", .jnum 3)]⟩, ⟨.jobj [("issue_id", .jnum 2)]⟩]⟩)]

/-- Witness for C4: the injected inline filter references exactly the
deduplicated identifiers 1, 2, 3. -/
theorem rass_C4_witness :
    injectChainedIds (.jobj [("query", .jobj [])]) ["d"] c4ResW "i" "u" =
      .ok (.jobj [("query", .jobj [("bool", .jobj [("filter",
            .jarr [inlineClause [.jnum 1, .jnum 2, .jnum 3]])])])], []) :=
  ((rass_C4 (.jobj [("query", .jobj [])]) [] ["d"] c4ResW "i" "u"
      [.jnum 1, .jnum 2, .jnum 3] rfl rfl (by decide)).1).2
    (by decide) (by decide)

/-- Counterexample for C4 as stated: `s1` ends with zero hits, so the
dependent step `s2` has zero propagate-able identifiers — yet it is
executed with its unconstrained original query (the backend returns a hit
for exactly that body) and recorded with one hit, not skipped with zero. -/
theorem rass_C4_cex :
    collectIdSet ["s1"] [("s1", ⟨"p1", []⟩)] = []
    ∧ runPlan [c4s1, c4s2] (.jarr []) c4B "idx" (fun _ => "u") =
        .ok ([("s1", ⟨"p1", []⟩), ("s2", ⟨"p2", [c4Hit]⟩)], [])
    ∧ (some (⟨"p2", [c4Hit]⟩ : ExecResult) ≠ some ⟨"p2", []⟩) := by
  decide

/-- Helper for C5/C4: folding `Set.add` over fresh, pairwise-distinct
values appends them all. -/
theorem foldl_insertUniq (l : List JVal) :
    ∀ acc, (∀ v ∈ l, v ∉ acc) → l.Nodup →
      l.foldl insertUniq acc = acc ++ l := by
  induction l with
  | nil => intro acc _ _; simp
  | cons a t ih =>
    intro acc hd hn
    have ha : a ∉ acc := hd a (by simp)
    rw [List.foldl_cons, show insertUniq acc a = acc ++ [a] by simp [insertUniq, ha]]
    rw [ih (acc ++ [a]) ?_ (List.nodup_cons.mp hn).2]
    · simp
    · intro v hv
      simp only [List.mem_append, List.mem_singleton]
      rintro (hacc | hveq)
      · exact hd v (by simp [hv]) hacc
      · exact (List.nodup_cons.mp hn).1 (hveq ▸ hv)

/-- Helper for C5: a single dependency whose hits carry pairwise-distinct
identifiers collects exactly that identifier list. -/
theorem collectIdSet_single (d pp : String) (ids : List JVal) (hn : ids.Nodup) :
    collectIdSet [d]
        [(d, ⟨pp, ids.map fun v => ⟨.jobj [("issue_id", v)]⟩⟩)] = ids := by
  have h0 : collectIdSet [d] [(d, ⟨pp, ids.map fun v => ⟨.jobj [("issue_id", v)]⟩⟩)]
      = (ids.map fun v => (⟨.jobj [("issue_id", v)]⟩ : Hit)).foldl
          (fun acc2 h => insertUniq acc2 (h.source.jget "issue_id")) [] := by
    simp [collectIdSet, List.lookup]
  have hfun : (fun (acc2 : List JVal) (v : JVal) =>
      insertUniq acc2 ((Hit.mk (.jobj [("issue_id", v)])).source.jget "issue_id"))
      = fun acc2 v => insertUniq acc2 v := by
    funext acc2 v
    rfl
  rw [h0, List.foldl_map, hfun, foldl_insertUniq ids [] (by simp) hn]
  simp

/-- C5: for a non-empty collected identifier set, `injectChainedIds`
persists the set as a side document and injects an indirect terms-lookup
clause when the set exceeds the 1000-identifier threshold, and injects the
inline list of exactly those identifiers (with no side document) when it is
at or below the threshold. -/
theorem rass_C5 (body : JVal) (qf : List (String × JVal)) (deps : List String)
    (res : ResultsMap) (idx u : String) (ids : List JVal)
    (h1 : body.jget "query" = .jobj qf)
    (h2 : qf.lookup "bool" = none)
    (h3 : collectIdSet deps res = ids) (hne : ids ≠ []) :
    (1000 < ids.length →
      injectChainedIds body deps res idx u =
        .ok (body.jset "query" ((JVal.jobj qf).jset "bool"
              (.jobj [("filter",
                .jarr [lookupClause idx ("issue_ids_list_" ++ u)])])),
             [⟨idx, "issue_ids_list_" ++ u, .jobj [("issue_ids", .jarr ids)]⟩]))
    ∧ (ids.length ≤ 1000 →
      injectChainedIds body deps res idx u =
        .ok (body.jset "query" ((JVal.jobj qf).jset "bool"
              (.jobj [("filter", .jarr [inlineClause ids])])), [])) := by
  have hie : ids.isEmpty = false := by
    cases ids with
    | nil => exact absurd rfl hne
    | cons a t => rfl
  constructor
  · intro hgt
    simp only [injectChainedIds]
    rw [h3, h1]
    simp [hie, hgt, h2, storeIdList, JVal.truthy, JVal.jget, JVal.jset, JVal.setField]
  · intro hle
    have hgt : ¬ (1000 < ids.length) := by omega
    simp only [injectChainedIds]
    rw [h3, h1]
    simp [hie, hgt, h2, JVal.truthy, JVal.jget, JVal.jset, JVal.setField]

/-- 1001 pairwise-distinct identifiers for the C5 witness. -/
def bigIds : List JVal := (List.range 1001).map fun n => JVal.jnum (Int.ofNat n)

theorem bigIds_nodup : bigIds.Nodup := by
  unfold bigIds
  apply List.Nodup.map
  · intro a b hab
    exact Int.ofNat.inj (JVal.jnum.inj hab)
  · exact List.nodup_range 1001

theorem bigIds_len_eq : bigIds.length = 1001 := by
  unfold bigIds
  rw [List.length_map, List.length_range]

theorem bigIds_ne_nil : bigIds ≠ [] := by
  intro he
  have h := bigIds_len_eq
  rw [he] at h
  simp at h

theorem bigIds_len : 1000 < bigIds.length := by
  rw [bigIds_len_eq]
  omega

def c5Body : JVal := .jobj [("query", .jobj [])]

def c5ResBig : ResultsMap :=
  [("d", ⟨"p", bigIds.map fun v => ⟨.jobj [("issue_id", v)]⟩⟩)]

/-- Witness for C5: 1001 collected identifiers produce the indirect lookup
clause plus one persisted side document holding exactly those identifiers. -/
theorem rass_C5_witness :
    injectChainedIds c5Body ["d"] c5ResBig "myidx" "u7" =
      .ok (c5Body.jset "query" ((JVal.jobj []).jset "bool"
            (.jobj [("filter",
              .jarr [lookupClause "myidx" "issue_ids_list_u7"])])),
           [⟨"myidx", "issue_ids_list_u7", .jobj [("issue_ids", .jarr bigIds)]⟩]) :=
  (rass_C5 c5Body [] ["d"] c5ResBig "myidx" "u7" bigIds rfl rfl
    (collectIdSet_single "d" "p" bigIds bigIds_nodup) bigIds_ne_nil).1 bigIds_len

/-! Concrete first step for C8: an embedding-marked step with a plain term
query (so materialization leaves its body untouched) whose initial search
will fail. -/

def c8Body : JVal :=
  .jobj [("query", .jobj [("term", .jobj [("doc_id", .jstr "x")])]),
         ("size", .jnum 5)]

def c8Step : StepS :=
  { step_id := some "s1", requires_embedding := some true,
    depends_on := some [], query_body := some c8Body }

/-- The loop body of `runPlan` on `c8Step` reduces to the outcome of its
`scrollAll` call: only the backend's answer is left undetermined. -/
theorem c8_runStep (vec : JVal) (os : Backend) (idx : String)
    (uF : Nat → String) :
    runStep ⟨vec, os, idx, uF⟩ {} c8Step =
      match scrollAll os c8Body with
      | .error e => .error e
      | .ok r => .ok ⟨[("s1", ⟨"unspecified", r.hits⟩)], [], 0⟩ := rfl

/-- C8 (amended): when a step's initial search request fails, `scrollAll`
throws and `runPlan` — which has no catch — aborts the *entire* attempt
with that error: no empty hit list is recorded for the step and none of the
remaining steps of the plan is executed.  Backend failures are plan-fatal
here, not step-scoped. -/
theorem rass_C8 (rest : List StepS) (vec : JVal) (os : Backend)
    (idx : String) (uF : Nat → String)
    (h : os.searchFails c8Body = true) :
    runPlan (c8Step :: rest) vec os idx uF = .error "search failed" := by
  have hscroll : scrollAll os c8Body = .error "search failed" := by
    simp [scrollAll, h]
  have hfp : fullPlan (c8Step :: rest) = c8Step :: rest := by
    simp [fullPlan, stepHasEmb, c8Step, boolTruthy]
  have hstep : runStep ⟨vec, os, idx, uF⟩ {} c8Step = .error "search failed" := by
    rw [c8_runStep, hscroll]
  simp [runPlan, hfp, runStepsList, hstep]

/-- A second step that would succeed on its own, and a backend that fails
`c8Step`'s search while holding a hit for this step. -/
def c8Other : StepS :=
  { step_id := some "s2", requires_embedding := some true,
    depends_on := some [],
    query_body := some (.jobj
      [("query", .jobj [("term", .jobj [("doc_id", .jstr "y")])]),
       ("size", .jnum 5)]) }

def c8Backend : Backend :=
  ⟨fun b => if b = c8Body then [] else [[⟨.jobj [("doc_id", .jstr "hit2")]⟩]],
   fun b => b = c8Body⟩

/-- Witness for C8: with a backend whose search fails on the first step's
body, the whole attempt errors regardless of the remaining steps. -/
theorem rass_C8_witness :
    runPlan (c8Step :: [c8Other]) (.jarr []) c8Backend "idx" (fun _ => "u") =
      .error "search failed" :=
  rass_C8 [c8Other] (.jarr []) c8Backend "idx" (fun _ => "u") (by decide)

/-- Counterexample for C8 as stated: the failing first step does not yield
an empty hit list with execution continuing — the whole `runPlan` attempt
aborts, although the second step alone would have executed and produced a
hit. -/
theorem rass_C8_cex :
    runPlan [c8Step, c8Other] (.jarr []) c8Backend "idx" (fun _ => "u") =
      .error "search failed"
    ∧ runPlan [c8Other] (.jarr []) c8Backend "idx" (fun _ => "u") =
        .ok ([("s2", ⟨"unspecified", [⟨.jobj [("doc_id", .jstr "hit2")]⟩]⟩)], [])
    ∧ (Except.error "search failed" ≠
        (.ok ([("s1", ⟨"unspecified", []⟩),
               ("s2", ⟨"unspecified", [⟨.jobj [("doc_id", .jstr "hit2")]⟩]⟩)], [])
          : Except String (ResultsMap × List SideDoc))) := by
  decide

/-! Concrete embedding step for C9: a knn query whose vector placeholder is
filled by `replaceVectors` with whatever `embedText` returned. -/

def c9Body : JVal :=
  .jobj [("query", .jobj [("knn", .jobj [("embedding",
            .jobj [("vector", .jarr []), ("k", .jnum 25)])])]),
         ("size", .jnum 25)]

def c9Step : StepS :=
  { step_id := some "k1", requires_embedding := some true,
    depends_on := some [], query_body := some c9Body }

/-- The materialized body of `c9Step` after vector injection. -/
def c9Mat (vs : List JVal) : JVal :=
  .jobj [("query", .jobj [("knn", .jobj [("embedding",
            .jobj [("vector", .jarr vs), ("k", .jnum 25)])])]),
         ("size", .jnum 25)]

/-- `replaceVectors` fills exactly the vector slot of `c9Body`. -/
theorem c9_replace (vs : List JVal) :
    replaceVectors (.jarr vs) (.jnum 25) c9Body = c9Mat vs := rfl

/-- `validate` rejects the materialized body whenever the injected vector's
length differs from `EMBED_DIM`. -/
theorem c9_validate (vs : List JVal) (h : vs.length ≠ EMBED_DIM) :
    validate (c9Mat vs) =
      .error ("knn vector length " ++ toString vs.length ++ " ≠ "
        ++ toString EMBED_DIM) := by
  simp [validate, c9Mat, validateWalk, validateFields, vectorLen,
    JVal.jget, JVal.truthy, JVal.objLike, h, Bind.bind, Except.bind]

/-- The loop body of `runPlan` on `c9Step` reduces to validation of the
materialized body followed by execution. -/
theorem c9_runStep (vs : List JVal) (os : Backend) (idx : String)
    (uF : Nat → String) :
    runStep ⟨.jarr vs, os, idx, uF⟩ {} c9Step =
      match validate (c9Mat vs) with
      | .error e => .error e
      | .ok _ =>
        match scrollAll os (c9Mat vs) with
        | .error e => .error e
        | .ok r => .ok ⟨[("k1", ⟨"unspecified", r.hits⟩)], [], 0⟩ := rfl

/-- C9 (amended): a step whose materialized query carries an embedding
vector of the wrong dimensionality is rejected by `validate` — but the
throw is not step-scoped: `runPlan` has no catch, so the whole attempt
aborts with the validation error and no remaining step of the plan is
executed. -/
theorem rass_C9 (vs : List JVal) (rest : List StepS) (os : Backend)
    (idx : String) (uF : Nat → String) (h : vs.length ≠ EMBED_DIM) :
    runPlan (c9Step :: rest) (.jarr vs) os idx uF =
      .error ("knn vector length " ++ toString vs.length ++ " ≠ "
        ++ toString EMBED_DIM) := by
  have hfp : fullPlan (c9Step :: rest) = c9Step :: rest := by
    simp [fullPlan, stepHasEmb, c9Step, boolTruthy]
  have hstep : runStep ⟨.jarr vs, os, idx, uF⟩ {} c9Step =
      .error ("knn vector length " ++ toString vs.length ++ " ≠ "
        ++ toString EMBED_DIM) := by
    rw [c9_runStep, c9_validate vs h]
  simp [runPlan, hfp, runStepsList, hstep]

/-- A second step that would execute on its own, plus a backend holding a
hit for it. -/
def c9Other : StepS :=
  { step_id := some "t2", requires_embedding := some true,
    depends_on := some [],
    query_body := some (.jobj
      [("query", .jobj [("term", .jobj [("doc_id", .jstr "z")])]),
       ("size", .jnum 5)]) }

def c9Backend : Backend :=
  ⟨fun _ => [[⟨.jobj [("doc_id", .jstr "hit9")]⟩]], fun _ => false⟩

/-- Witness for C9: a two-element embedding vector (length 2 ≠ 1536) makes
the whole attempt fail with the dimension-mismatch error. -/
theorem rass_C9_witness :
    runPlan (c9Step :: [c9Other]) (.jarr [.jnum 0, .jnum 1]) c9Backend "idx"
        (fun _ => "u") =
      .error ("knn vector length "
        ++ toString ([JVal.jnum 0, JVal.jnum 1] : List JVal).length ++ " ≠ "
        ++ toString EMBED_DIM) :=
  rass_C9 [.jnum 0, .jnum 1] [c9Other] c9Backend "idx" (fun _ => "u")
    (by decide)

/-- Counterexample for C9 as stated: the mismatching step is not skipped
with execution continuing — the whole `runPlan` attempt errors, although
the second step alone would have executed and produced a hit. -/
theorem rass_C9_cex :
    runPlan [c9Step, c9Other] (.jarr [.jnum 0]) c9Backend "idx"
        (fun _ => "u") = .error "knn vector length 1 ≠ 1536"
    ∧ runPlan [c9Other] (.jarr [.jnum 0]) c9Backend "idx" (fun _ => "u") =
        .ok ([("t2", ⟨"unspecified", [⟨.jobj [("doc_id", .jstr "hit9")]⟩]⟩)],
             []) := by
  decide

end Rass
